import Mathlib

/-
Verification development for the solar-nordpool-discharge repository.

The repository has three Python files:
  * config.py          : the CONFIG dictionary of settings;
  * main.py            : Nord Pool day-ahead price fetcher (fetch_prices,
                         save_to_csv, cleanup_old_files, should_attempt_fetch,
                         and the 24/7 monitoring loop in main);
  * solar_discharge.py : peak-slot selection (find_peak_slot) and the Modbus
                         discharge command (discharge_command, main).

The definitions below are shallow embeddings of those functions.  Conventions:
  * Prices are rationals (the Python floats hold 2-decimal values for which
    the comparisons performed by the code are exact).
  * Wall-clock instants are seconds (or hour/minute pairs) since local
    midnight of the current EET day; one monitoring cycle stays inside one
    day, so the "tomorrow" date string is a fixed parameter of the loop step.
  * The persisted saves/ folder is modelled as an association list from the
    date string of a file lv_prices_{date}.csv to its rows; the filename is
    determined by the date, so files are identified by their dates.
  * Network, pandas timezone conversion and the Modbus transport are oracle
    parameters (functions passed in), never stubbed to constants.
  * Logging is write-only in the source (log_message appends to a file and
    is never read back), so it is not part of the state.
-/

namespace SolarNordpool

/-- Embedding of the CONFIG dictionary of config.py.  Default field values are
the literal values in config.py; the dictionary is user-editable ("Edit here
for all settings"), so functions take the configuration as a parameter.
Log-file naming settings are omitted (logging carries no control flow). -/
structure Config where
  delivery_area : String := "LV"
  max_files : Nat := 10
  retry_start_hour : Nat := 13
  retry_end_hour : Nat := 18
  retry_minutes : Nat := 30
  min_price_threshold : ℚ := 20
  discharge_duration_min : Nat := 15
  modbus_unit : Nat := 1

/-- The configuration exactly as shipped in config.py. -/
def CONFIG : Config := {}

/-- One row of a saved CSV: a 15-minute delivery interval with its price
(columns StartTime, EndTime, Price of main.py fetch_prices output). -/
structure PriceSlot where
  StartTime : String
  EndTime : String
  Price : ℚ
deriving DecidableEq, Repr

/-! ### PriceSource: fetch_prices of main.py (lines 46-78) -/

/-- One element of the multiAreaEntries array of the API response:
UTC delivery instants plus the per-area price map entryPerArea. -/
structure RawEntry where
  deliveryStart : String
  deliveryEnd : String
  entryPerArea : List (String × ℚ)
deriving DecidableEq, Repr

/-- The decoded HTTP response: status code and the (possibly absent)
multiAreaEntries array of the JSON body. -/
structure ApiResponse where
  status_code : Nat
  multiAreaEntries : Option (List RawEntry)
deriving DecidableEq, Repr

/-- Outcome of requests.get: a response, or a raised exception (caught by the
bare except of fetch_prices). -/
inductive HttpResult where
  | ok (response : ApiResponse)
  | exn (msg : String)
deriving DecidableEq, Repr

/-- Round a rational to the nearest integer, ties to even: the semantics of
the numpy rounding used by df.round(2) in fetch_prices (line 64). -/
def roundHalfEven (q : ℚ) : ℤ :=
  let f : ℤ := ⌊q⌋
  let r : ℚ := q - (f : ℚ)
  if r < 1/2 then f
  else if 1/2 < r then f + 1
  else if f % 2 = 0 then f else f + 1

/-- Round to 2 decimal places (df.round(2) on the Price column). -/
def round2 (q : ℚ) : ℚ := ((roundHalfEven (q * 100) : ℤ) : ℚ) / 100

/-- Price extraction of fetch_prices line 63:
df.entryPerArea.apply(lambda x: x.get('LV', 0)) — the literal dictionary key
"LV" with default 0, independent of any configuration value. -/
def extractPrice (e : RawEntry) : ℚ := (e.entryPerArea.lookup "LV").getD 0

/-- One output row of fetch_prices (lines 56-64): delivery instants are sent
through the pandas/pytz UTC→EET conversion and HH:MM formatting, modelled by
the oracle localHM; the price is the "LV" entry rounded to 2 decimals. -/
def slotOfEntry (localHM : String → String) (e : RawEntry) : PriceSlot :=
  { StartTime := localHM e.deliveryStart
    EndTime := localHM e.deliveryEnd
    Price := round2 (extractPrice e) }

/-- Response handling of fetch_prices (lines 49-78).  A raised exception is
caught and yields None; a 200 response with a present, non-empty
multiAreaEntries array yields the converted rows; a 200 response without
them, a 204 (pre-auction) response, and any other status alike yield None
(the branches differ only in the log text). -/
def processResponse (localHM : String → String) (res : HttpResult) :
    Option (List PriceSlot) :=
  match res with
  | .exn _ => none
  | .ok r =>
    if r.status_code = 200 then
      match r.multiAreaEntries with
      | some (e :: es) => some ((e :: es).map (slotOfEntry localHM))
      | some [] => none
      | none => none
    else if r.status_code = 204 then none
    else none

/-- URL construction of fetch_prices line 48; the configured delivery_area
appears here and only here. -/
def build_url (cfg : Config) (target_date : String) : String :=
  "https://dataportal-api.nordpoolgroup.com/api/DayAheadPrices?date="
    ++ target_date ++ "&market=DayAhead&deliveryArea=" ++ cfg.delivery_area
    ++ "&currency=EUR"

/-- fetch_prices of main.py: one request to the built URL (the oracle http
stands for requests.get), then response processing. -/
def fetch_prices (cfg : Config) (localHM : String → String)
    (http : String → HttpResult) (target_date : String) :
    Option (List PriceSlot) :=
  processResponse localHM (http (build_url cfg target_date))

/-! ### PriceStore: save_to_csv and cleanup_old_files of main.py -/

/-- The saves/ folder: one entry per stored file lv_prices_{date}.csv,
identified by its date string, holding the saved rows. -/
abbrev Store := List (String × List PriceSlot)

/-- save_to_csv (lines 80-84): df.to_csv overwrites the file for that date
if it exists, so any previous entry for the same date is replaced. -/
def save_to_csv (store : Store) (date : String) (df : List PriceSlot) : Store :=
  (date, df) :: store.filter (fun p => decide (p.1 ≠ date))

/-- Python compares strings by code points: the lexicographic order on the
character sequence.  Lean's String order is the same order
(String.le_iff_toList_le), but its comparison primitive does not reduce in
the kernel, so the embedding compares the underlying character lists. -/
def dateLe (a b : String) : Prop := a.data ≤ b.data

instance : DecidableRel dateLe :=
  fun a b => inferInstanceAs (Decidable (a.data ≤ b.data))

/-- The sort of cleanup_old_files line 93: files sorted by their date string,
descending (reverse=True), so newest first.  Python's list.sort is a stable
sort; a stable insertion sort has the same output on every input (and the
keys here are distinct filenames' distinct date substrings anyway). -/
def sortDatesDesc (dates : List String) : List String :=
  List.insertionSort (fun a b => dateLe b a) dates

/-- cleanup_old_files (lines 86-97) at the level of the file-date set: if at
most max_files files match the glob, nothing happens; otherwise the files
beyond the first max_files of the descending sort are deleted, leaving the
max_files largest date strings. -/
def cleanup_old_files (cfg : Config) (dates : List String) : List String :=
  if dates.length ≤ cfg.max_files then dates
  else (sortDatesDesc dates).take cfg.max_files

/-- Effect of cleanup_old_files on the stored contents: a file survives
exactly when its date is among the kept dates. -/
def store_cleanup (cfg : Config) (store : Store) : Store :=
  let keep := cleanup_old_files cfg (store.map Prod.fst)
  store.filter (fun p => decide (p.1 ∈ keep))

/-- The write-then-evict sequence of the main loop (lines 141-143):
save_to_csv followed by cleanup_old_files. -/
def write_and_cleanup (cfg : Config) (store : Store) (date : String)
    (df : List PriceSlot) : Store :=
  store_cleanup cfg (save_to_csv store date df)

/-- Reading one date back from the saves/ folder (pd.read_csv of the file
for that date in find_peak_slot): the stored rows if the file exists. -/
def store_read (store : Store) (date : String) : Option (List PriceSlot) :=
  store.lookup date

/-! ### FetchScheduler: should_attempt_fetch and the main loop of main.py -/

/-- should_attempt_fetch (lines 99-107): False before retry_start_hour,
False after retry_end_hour (strictly greater hour), else true when the
minute has reached retry_minutes. -/
def should_attempt_fetch (cfg : Config) (hour minute : Nat) : Bool :=
  if hour < cfg.retry_start_hour then false
  else if cfg.retry_end_hour < hour then false
  else decide (cfg.retry_minutes ≤ minute)

/-- The next_attempt computation of the wait branch (lines 152-154), in
seconds since local midnight: today at retry_start_hour:retry_minutes, plus
one hour when the current instant is already past that. -/
def next_attempt_sec (cfg : Config) (nowSec : Nat) : Nat :=
  let t := (cfg.retry_start_hour * 60 + cfg.retry_minutes) * 60
  if t < nowSec then t + 3600 else t

/-- The sleep of the wait branch (lines 155-157):
time.sleep(max(sleep_sec, 60)) where sleep_sec is the signed distance to
next_attempt. -/
def wait_sleep_sec (cfg : Config) (nowSec : Nat) : Int :=
  max ((next_attempt_sec cfg nowSec : Int) - (nowSec : Int)) 60

/-- Hour of an instant given in seconds since local midnight. -/
def hourOf (nowSec : Nat) : Nat := nowSec / 3600

/-- Minute-of-hour of an instant given in seconds since local midnight. -/
def minuteOf (nowSec : Nat) : Nat := nowSec % 3600 / 60

/-- What one iteration of the while-True loop did. -/
inductive LoopAction where
  | attemptSuccess
  | attemptFail
  | waited
deriving DecidableEq, Repr

/-- State carried across iterations of the monitoring loop: the wall clock
(the loop holds no other state — in particular no success flag) and the
saves/ folder. -/
structure LoopState where
  nowSec : Nat
  store : Store
deriving DecidableEq, Repr

/-- One iteration of the while-True loop of main (lines 133-157) within a
single cycle (one calendar day, so the target date tomorrow is fixed).
If should_attempt_fetch holds, fetch tomorrow's prices: on success, save the
CSV, run cleanup, and sleep 3600 s; on failure sleep 3600 s.  Otherwise
sleep until next_attempt (with the 60 s floor).  The fetch oracle stands for
fetch_prices applied to the network. -/
def main_loop_step (cfg : Config) (fetch : String → Option (List PriceSlot))
    (tomorrow : String) (s : LoopState) : LoopAction × LoopState :=
  if should_attempt_fetch cfg (hourOf s.nowSec) (minuteOf s.nowSec) then
    match fetch tomorrow with
    | some df =>
      (.attemptSuccess,
       { nowSec := s.nowSec + 3600
         store := write_and_cleanup cfg s.store tomorrow df })
    | none =>
      (.attemptFail, { nowSec := s.nowSec + 3600, store := s.store })
  else
    (.waited,
     { nowSec := s.nowSec + (wait_sleep_sec cfg s.nowSec).toNat
       store := s.store })

/-! ### PeakSelector: find_peak_slot of solar_discharge.py (lines 43-78) -/

/-- df_filtered['Price'].idxmax() followed by .loc (lines 71-72): the first
row attaining the maximum price, None on an empty frame. -/
def idxmaxFirst : List PriceSlot → Option PriceSlot
  | [] => none
  | s :: rest =>
    match idxmaxFirst rest with
    | none => some s
    | some m => if s.Price < m.Price then some m else some s

/-- The selection core of find_peak_slot (lines 64-72): filter the rows with
Price ≥ min_price_threshold, then take the first row attaining the maximum
of the filtered frame; None when no row passes the filter. -/
def find_peak_slot_from (cfg : Config) (df : List PriceSlot) :
    Option PriceSlot :=
  idxmaxFirst (df.filter (fun s => decide (cfg.min_price_threshold ≤ s.Price)))

/-- find_peak_slot (lines 43-78): read tomorrow's CSV if present, otherwise
fall back to today's CSV (unconditionally — only the log text mentions
testing), otherwise None; then select the peak from the file read. -/
def find_peak_slot (cfg : Config) (store : Store) (today tomorrow : String) :
    Option PriceSlot :=
  match store_read store tomorrow with
  | some df => find_peak_slot_from cfg df
  | none =>
    match store_read store today with
    | some df => find_peak_slot_from cfg df
    | none => none

/-- Specification-side helper (for comparison with the embedded code): the
maximum price of a day's record-set, None for the empty set. -/
def maxPriceSpec? : List PriceSlot → Option ℚ
  | [] => none
  | s :: rest =>
    match maxPriceSpec? rest with
    | none => some s.Price
    | some m => some (max s.Price m)

/-- Specification-side helper: the chronologically-first slot (the sets are
stored in chronological order) whose price equals m. -/
def chronFirstWithPrice (df : List PriceSlot) (m : ℚ) : Option PriceSlot :=
  df.find? (fun s => decide (s.Price = m))

/-! ### DischargeController: discharge_command of solar_discharge.py -/

/-- Splitting a character sequence at ':' (str.split(':') on the underlying
code points; Lean's String.splitOn is position-based and does not reduce in
the kernel, so the embedding splits the character list). -/
def splitColon : List Char → List Char → List (List Char)
  | [], acc => [acc.reverse]
  | c :: cs, acc =>
    if c = ':' then acc.reverse :: splitColon cs []
    else splitColon cs (c :: acc)

/-- Value of a decimal digit character, None otherwise. -/
def digitVal? (c : Char) : Option Nat :=
  if c = '0' then some 0 else if c = '1' then some 1
  else if c = '2' then some 2 else if c = '3' then some 3
  else if c = '4' then some 4 else if c = '5' then some 5
  else if c = '6' then some 6 else if c = '7' then some 7
  else if c = '8' then some 8 else if c = '9' then some 9
  else none

/-- Accumulate decimal digits into a number, None at the first non-digit. -/
def digitsAcc? : List Char → Nat → Option Nat
  | [], acc => some acc
  | c :: cs, acc =>
    match digitVal? c with
    | some d => digitsAcc? cs (acc * 10 + d)
    | none => none

/-- int() on a field of the HH:MM string: the decimal value of a non-empty
digit sequence, None (a raised ValueError) otherwise. -/
def digitsToNat? (cs : List Char) : Option Nat :=
  match cs with
  | [] => none
  | _ => digitsAcc? cs 0

/-- The start_time parse of line 94: h, m = map(int, start_time.split(':')).
None models int() raising on a malformed string. -/
def parseHM (s : String) : Option (Nat × Nat) :=
  match splitColon s.data [] with
  | [a, b] =>
    match digitsToNat? a, digitsToNat? b with
    | some h, some m => some (h, m)
    | _, _ => none
  | _ => none

/-- The Modbus device as seen from discharge_command: whether connect()
leaves the client connected, and whether the i-th write_register call raises
(pymodbus raises ModbusException on transport failures). -/
structure DeviceOracle where
  connectOk : Bool
  writeRaises : Nat → Bool

/-- Observable outcome of discharge_command: the returned Bool, whether the
device connection was still open when the function returned, and the
(register, value) writes that completed. -/
structure DischargeResult where
  success : Bool
  connOpen : Bool
  writes : List (Nat × Nat)
deriving DecidableEq, Repr

/-- discharge_command (lines 80-104).  Everything from connect() onward sits
in one try block whose except clause only logs and returns False: if
connect() fails the raise happens with no open link; after a successful
connect, a parse failure or a raising write_register lands in the except
clause with client.close() never called, so the connection stays open; only
the all-writes-succeed path closes the connection and returns True. -/
def discharge_command (dev : DeviceOracle) (start_time : String)
    (duration_min : Nat) : DischargeResult :=
  if dev.connectOk = false then
    { success := false, connOpen := false, writes := [] }
  else
    match parseHM start_time with
    | none => { success := false, connOpen := true, writes := [] }
    | some (h, m) =>
      if dev.writeRaises 0 then
        { success := false, connOpen := true, writes := [] }
      else if dev.writeRaises 1 then
        { success := false, connOpen := true, writes := [(0x011A, h)] }
      else if dev.writeRaises 2 then
        { success := false, connOpen := true
          writes := [(0x011A, h), (0x011B, m)] }
      else if dev.writeRaises 3 then
        { success := false, connOpen := true
          writes := [(0x011A, h), (0x011B, m), (0x011C, duration_min)] }
      else
        { success := true, connOpen := false
          writes := [(0x011A, h), (0x011B, m), (0x011C, duration_min),
                     (0x0100, 35)] }

/-- Outcome of main of solar_discharge.py (lines 124-143). -/
inductive RunOutcome where
  | skipped
  | testWouldDischarge (slot : PriceSlot)
  | liveDischarge (slot : PriceSlot) (ok : Bool)
deriving DecidableEq, Repr

/-- main of solar_discharge.py: select the peak (the selection happens before
and independently of test_mode), skip when there is none, log-only in test
mode, otherwise issue the discharge command for the slot's start time. -/
def solar_main (cfg : Config) (store : Store) (today tomorrow : String)
    (test_mode : Bool) (dev : DeviceOracle) : RunOutcome :=
  match find_peak_slot cfg store today tomorrow with
  | none => .skipped
  | some peak =>
    if test_mode then .testWouldDischarge peak
    else .liveDischarge peak
      (discharge_command dev peak.StartTime cfg.discharge_duration_min).success

/-! ### Concrete data used by the scenario checks below -/

/-- Scenario A of the specification: three slots priced 15, 25, 25. -/
def scenarioA : List PriceSlot :=
  [⟨"00:00", "00:15", 15⟩, ⟨"00:15", "00:30", 25⟩, ⟨"00:30", "00:45", 25⟩]

/-- A network oracle on which every fetch succeeds with Scenario A's slots. -/
def fetchAlways : String → Option (List PriceSlot) := fun _ => some scenarioA

/-- The shipped configuration with the retention cap set to 2. -/
def cfgCap2 : Config := { max_files := 2 }

/-- A device on which connect succeeds and every write succeeds. -/
def devAllOk : DeviceOracle := ⟨true, fun _ => false⟩

/-- A device on which connect succeeds, the first write_register succeeds and
the second one raises. -/
def devSecondWriteRaises : DeviceOracle := ⟨true, fun i => decide (i = 1)⟩

/-- A store holding only today's file (2025-12-01), with Scenario A's rows. -/
def storeTodayOnly : Store := [("2025-12-01", scenarioA)]

/-- A store holding two files, 2025-12-02 and 2025-12-03. -/
def storeTwoNewest : Store := [("2025-12-03", scenarioA), ("2025-12-02", scenarioA)]

/-- A one-slot record-set priced below the threshold. -/
def dfLow : List PriceSlot := [⟨"00:00", "00:15", 9⟩]

/-- A provider entry whose per-area price map lacks the "LV" key. -/
def entryNoLV : RawEntry := ⟨"s", "e", [("FI", 30)]⟩

/-- A network oracle returning, for every URL, a 200 response holding the
single entry without an "LV" key. -/
def httpConstNoLV : String → HttpResult :=
  fun _ => .ok ⟨200, some [entryNoLV]⟩

/-- The shipped configuration with the delivery area changed to FI. -/
def cfgAreaFI : Config := { delivery_area := "FI" }

/-! ### Lemmas about the peak selection -/

theorem maxPriceSpec?_eq_none_iff (df : List PriceSlot) :
    maxPriceSpec? df = none ↔ df = [] := by
  cases df with
  | nil => simp [maxPriceSpec?]
  | cons s rest =>
    simp only [maxPriceSpec?]
    cases maxPriceSpec? rest <;> simp

theorem maxPriceSpec?_le (df : List PriceSlot) (m : ℚ)
    (h : maxPriceSpec? df = some m) : ∀ s ∈ df, s.Price ≤ m := by
  induction df generalizing m with
  | nil => simp [maxPriceSpec?] at h
  | cons a rest ih =>
    intro s hs
    rcases hr : maxPriceSpec? rest with _ | m'
    · have hrest : rest = [] := (maxPriceSpec?_eq_none_iff rest).mp hr
      subst hrest
      simp only [maxPriceSpec?, Option.some.injEq] at h
      rcases List.mem_cons.mp hs with rfl | h0
      · exact le_of_eq h
      · simp at h0
    · simp only [maxPriceSpec?, hr, Option.some.injEq] at h
      subst h
      rcases List.mem_cons.mp hs with rfl | h0
      · exact le_max_left _ _
      · exact le_trans (ih m' hr s h0) (le_max_right _ _)

theorem maxPriceSpec?_mem (df : List PriceSlot) (m : ℚ)
    (h : maxPriceSpec? df = some m) : ∃ s ∈ df, s.Price = m := by
  induction df generalizing m with
  | nil => simp [maxPriceSpec?] at h
  | cons a rest ih =>
    rcases hr : maxPriceSpec? rest with _ | m'
    · simp only [maxPriceSpec?, hr, Option.some.injEq] at h
      exact ⟨a, by simp, h⟩
    · simp only [maxPriceSpec?, hr, Option.some.injEq] at h
      subst h
      rcases le_total m' a.Price with hcmp | hcmp
      · exact ⟨a, by simp, (max_eq_left hcmp).symm⟩
      · obtain ⟨t, ht, htp⟩ := ih m' hr
        exact ⟨t, by simp [ht], by rw [htp, max_eq_right hcmp]⟩

theorem maxPriceSpec?_eq_some (df : List PriceSlot) (m : ℚ)
    (hmem : ∃ s ∈ df, s.Price = m) (hle : ∀ s ∈ df, s.Price ≤ m) :
    maxPriceSpec? df = some m := by
  rcases hmem with ⟨t, ht, rfl⟩
  rcases hm : maxPriceSpec? df with _ | m'
  · rw [maxPriceSpec?_eq_none_iff] at hm
    subst hm
    simp at ht
  · have h1 : t.Price ≤ m' := maxPriceSpec?_le df m' hm t ht
    obtain ⟨u, hu, hup⟩ := maxPriceSpec?_mem df m' hm
    have h2 : m' ≤ t.Price := hup ▸ hle u hu
    rw [le_antisymm h2 h1]

theorem idxmaxFirst_eq_chronFirst (df : List PriceSlot) (m : ℚ)
    (h : maxPriceSpec? df = some m) :
    idxmaxFirst df = chronFirstWithPrice df m := by
  induction df generalizing m with
  | nil => simp [maxPriceSpec?] at h
  | cons a rest ih =>
    rcases hr : maxPriceSpec? rest with _ | m'
    · have hrest : rest = [] := (maxPriceSpec?_eq_none_iff rest).mp hr
      subst hrest
      simp only [maxPriceSpec?, Option.some.injEq] at h
      subst h
      simp [idxmaxFirst, chronFirstWithPrice]
    · simp only [maxPriceSpec?, hr, Option.some.injEq] at h
      subst h
      have hrec := ih m' hr
      obtain ⟨t, ht, htp⟩ := maxPriceSpec?_mem rest m' hr
      have hfind : ∃ u, chronFirstWithPrice rest m' = some u := by
        rcases hu : chronFirstWithPrice rest m' with _ | u
        · rw [chronFirstWithPrice, List.find?_eq_none] at hu
          exact absurd (by simpa using htp) (by simpa using hu t ht)
        · exact ⟨u, rfl⟩
      obtain ⟨u, hu⟩ := hfind
      have hup : u.Price = m' := by
        have h2 : decide (u.Price = m') = true :=
          List.find?_some (p := fun s => decide (s.Price = m')) (a := u)
            (by simpa [chronFirstWithPrice] using hu)
        simpa using h2
      by_cases hcmp : a.Price < m'
      · rw [max_eq_right (le_of_lt hcmp)]
        simp only [idxmaxFirst, hrec, hu]
        rw [if_pos (by rw [hup]; exact hcmp)]
        rw [chronFirstWithPrice,
          List.find?_cons_of_neg _ (by simpa using ne_of_lt hcmp)]
        exact hu.symm
      · rw [max_eq_left (not_lt.mp hcmp)]
        simp only [idxmaxFirst, hrec, hu]
        rw [if_neg (by rw [hup]; exact hcmp)]
        rw [chronFirstWithPrice, List.find?_cons_of_pos _ (by simp)]

theorem find?_filter_threshold (θ m : ℚ) (hθ : θ ≤ m) (df : List PriceSlot) :
    (df.filter (fun s => decide (θ ≤ s.Price))).find?
        (fun s => decide (s.Price = m))
      = df.find? (fun s => decide (s.Price = m)) := by
  induction df with
  | nil => simp
  | cons a rest ih =>
    by_cases hp : θ ≤ a.Price
    · rw [List.filter_cons_of_pos (by simpa using hp)]
      by_cases hm : a.Price = m
      · rw [List.find?_cons_of_pos _ (by simpa using hm),
          List.find?_cons_of_pos _ (by simpa using hm)]
      · rw [List.find?_cons_of_neg _ (by simpa using hm),
          List.find?_cons_of_neg _ (by simpa using hm), ih]
    · rw [List.filter_cons_of_neg (by simpa using hp)]
      have hm : a.Price ≠ m := fun he => hp (he ▸ hθ)
      rw [List.find?_cons_of_neg _ (by simpa using hm), ih]

theorem maxPriceSpec?_filter (cfg : Config) (df : List PriceSlot) (m : ℚ)
    (h : maxPriceSpec? df = some m) (hθ : cfg.min_price_threshold ≤ m) :
    maxPriceSpec?
        (df.filter (fun s => decide (cfg.min_price_threshold ≤ s.Price)))
      = some m := by
  obtain ⟨t, ht, htp⟩ := maxPriceSpec?_mem df m h
  apply maxPriceSpec?_eq_some
  · exact ⟨t, List.mem_filter.mpr ⟨ht, by simp [htp, hθ]⟩, htp⟩
  · intro s hs
    exact maxPriceSpec?_le df m h s (List.mem_filter.mp hs).1

/-- C1: the selection core of find_peak_slot returns the chronologically
first slot among all slots whose price equals the set's maximum price,
provided that maximum reaches the threshold; it returns absence when no
slot's price reaches the threshold (in particular on the empty set); and on
Scenario A (threshold 20, prices 15/25/25) it selects the 00:15-00:30 slot
priced 25. -/
theorem C1_peak_selection (cfg : Config) (df : List PriceSlot) :
    (∀ m, maxPriceSpec? df = some m → cfg.min_price_threshold ≤ m →
       find_peak_slot_from cfg df = chronFirstWithPrice df m ∧
       (chronFirstWithPrice df m).isSome = true) ∧
    ((∀ s ∈ df, s.Price < cfg.min_price_threshold) →
       find_peak_slot_from cfg df = none) ∧
    find_peak_slot_from CONFIG scenarioA = some ⟨"00:15", "00:30", 25⟩ := by
  refine ⟨?_, ?_, by decide⟩
  · intro m hm hθ
    have hf := maxPriceSpec?_filter cfg df m hm hθ
    constructor
    · rw [find_peak_slot_from, idxmaxFirst_eq_chronFirst _ m hf]
      exact find?_filter_threshold _ m hθ df
    · obtain ⟨t, ht, htp⟩ := maxPriceSpec?_mem df m hm
      rcases hfind : chronFirstWithPrice df m with _ | u
      · rw [chronFirstWithPrice, List.find?_eq_none] at hfind
        exact absurd (by simpa using htp) (by simpa using hfind t ht)
      · rfl
  · intro hall
    rw [find_peak_slot_from]
    have hnil :
        df.filter (fun s => decide (cfg.min_price_threshold ≤ s.Price)) = [] := by
      rw [List.filter_eq_nil_iff]
      intro s hs
      simpa using not_le.mpr (hall s hs)
    rw [hnil]
    rfl

/-- Witness for C1: the general statement applied at Scenario A with
threshold 20, whose maximum price is 25. -/
theorem C1_peak_selection_witness :
    find_peak_slot_from CONFIG scenarioA = chronFirstWithPrice scenarioA 25 ∧
    (chronFirstWithPrice scenarioA 25).isSome = true :=
  (C1_peak_selection CONFIG scenarioA).1 25 (by decide) (by decide)

/-- C2 counterexample: 18:31 lies strictly after the retry window end
18:30 (retry_end_hour:retry_minutes of the shipped configuration), yet the
eligibility check still permits a fetch attempt there — the hour test only
rejects hours strictly greater than retry_end_hour, so 18:30-18:59 all pass. -/
theorem C2_counterexample :
    CONFIG.retry_end_hour = 18 ∧ CONFIG.retry_minutes = 30 ∧
    should_attempt_fetch CONFIG 18 31 = true := by decide

/-- C2 amended: the eligibility check forbids attempts only once the hour
exceeds retry_end_hour; at every time from retry_start_hour:retry_minutes up
to retry_end_hour:59 with the minute at or past retry_minutes — including
times such as 18:31 that lie strictly after the nominal window end
retry_end_hour:retry_minutes — an attempt is still permitted. -/
theorem C2_amended (cfg : Config) (h m : Nat) :
    (cfg.retry_end_hour < h → should_attempt_fetch cfg h m = false) ∧
    (cfg.retry_start_hour ≤ h → h ≤ cfg.retry_end_hour →
       cfg.retry_minutes ≤ m → should_attempt_fetch cfg h m = true) := by
  constructor
  · intro hlt
    rw [should_attempt_fetch]
    rcases Nat.lt_or_ge h cfg.retry_start_hour with h1 | h1
    · rw [if_pos h1]
    · rw [if_neg (Nat.not_lt.mpr h1), if_pos hlt]
  · intro h1 h2 h3
    rw [should_attempt_fetch, if_neg (Nat.not_lt.mpr h1),
      if_neg (Nat.not_lt.mpr h2)]
    simpa using h3

/-- Witness for C2 amended: hour 19 is rejected; 18:31 is permitted. -/
theorem C2_amended_witness :
    should_attempt_fetch CONFIG 19 0 = false ∧
    should_attempt_fetch CONFIG 18 31 = true :=
  ⟨(C2_amended CONFIG 19 0).1 (by decide),
   (C2_amended CONFIG 18 31).2 (by decide) (by decide) (by decide)⟩

/-- C3 counterexample: with every fetch succeeding, the loop attempts at
13:30 (48600 s into the day), writes tomorrow's set to the store, sleeps one
hour — and at 14:30 of the same day (52200 s < 86400 s, so the same cycle
and the same target date) it performs a fetch attempt for that date again:
the loop holds no success state and keeps attempting after a successful
write. -/
theorem C3_counterexample :
    (main_loop_step CONFIG fetchAlways "2025-12-02" ⟨48600, []⟩).1
        = .attemptSuccess ∧
    store_read
        (main_loop_step CONFIG fetchAlways "2025-12-02" ⟨48600, []⟩).2.store
        "2025-12-02" = some scenarioA ∧
    (main_loop_step CONFIG fetchAlways "2025-12-02" ⟨48600, []⟩).2.nowSec
        = 52200 ∧
    (main_loop_step CONFIG fetchAlways "2025-12-02"
        (main_loop_step CONFIG fetchAlways "2025-12-02" ⟨48600, []⟩).2).1
        = .attemptSuccess ∧
    52200 < 86400 := by decide

/-- C3 amended: after a successful fetch-and-write the loop merely sleeps
one hour; whenever the clock satisfies the eligibility check the iteration
performs a fetch attempt, regardless of any earlier success (the loop state
carries no success flag), so a success is followed by a further attempt for
the same date one hour later whenever the window is still open. -/
theorem C3_amended (cfg : Config) (fetch : String → Option (List PriceSlot))
    (tomorrow : String) (s : LoopState)
    (h : should_attempt_fetch cfg (hourOf s.nowSec) (minuteOf s.nowSec) = true) :
    ((main_loop_step cfg fetch tomorrow s).1 = .attemptSuccess ∨
     (main_loop_step cfg fetch tomorrow s).1 = .attemptFail) ∧
    (main_loop_step cfg fetch tomorrow s).2.nowSec = s.nowSec + 3600 := by
  rw [main_loop_step, if_pos h]
  rcases hf : fetch tomorrow with _ | df <;> simp

/-- Witness for C3 amended at 13:30 with an always-succeeding fetch. -/
theorem C3_amended_witness :
    ((main_loop_step CONFIG fetchAlways "2025-12-02" ⟨48600, []⟩).1
        = .attemptSuccess ∨
     (main_loop_step CONFIG fetchAlways "2025-12-02" ⟨48600, []⟩).1
        = .attemptFail) ∧
    (main_loop_step CONFIG fetchAlways "2025-12-02" ⟨48600, []⟩).2.nowSec
        = 48600 + 3600 :=
  C3_amended CONFIG fetchAlways "2025-12-02" ⟨48600, []⟩ (by decide)

/-- C4 counterexample: in a production run (test_mode = false) with
tomorrow's (2025-12-02) set absent and today's (2025-12-01) present, the
discharge driver silently substitutes today's set: it selects today's peak
slot and issues a live discharge for it, with no explicit request for the
substitution anywhere. -/
theorem C4_counterexample :
    store_read storeTodayOnly "2025-12-02" = none ∧
    solar_main CONFIG storeTodayOnly "2025-12-01" "2025-12-02" false devAllOk
      = .liveDischarge ⟨"00:15", "00:30", 25⟩ true := by decide

/-- C4 amended: the fallback to today's set is unconditional, in production
runs as well: whenever tomorrow's set is absent and today's is present, the
selection is made from today's set, and test_mode plays no role in the
selection (the run is a no-op exactly when today's set yields no peak). -/
theorem C4_amended (cfg : Config) (store : Store) (today tomorrow : String)
    (df : List PriceSlot) (tm : Bool) (dev : DeviceOracle)
    (habs : store_read store tomorrow = none)
    (htoday : store_read store today = some df) :
    find_peak_slot cfg store today tomorrow = find_peak_slot_from cfg df ∧
    (solar_main cfg store today tomorrow tm dev = .skipped ↔
      find_peak_slot_from cfg df = none) := by
  have hsel : find_peak_slot cfg store today tomorrow
      = find_peak_slot_from cfg df := by
    rw [find_peak_slot, habs, htoday]
  refine ⟨hsel, ?_⟩
  rw [solar_main, hsel]
  rcases hp : find_peak_slot_from cfg df with _ | peak
  · simp
  · rcases tm <;> simp

/-- Witness for C4 amended at the concrete store holding only today's file. -/
theorem C4_amended_witness :
    find_peak_slot CONFIG storeTodayOnly "2025-12-01" "2025-12-02"
        = find_peak_slot_from CONFIG scenarioA ∧
    (solar_main CONFIG storeTodayOnly "2025-12-01" "2025-12-02" false devAllOk
        = .skipped ↔ find_peak_slot_from CONFIG scenarioA = none) :=
  C4_amended CONFIG storeTodayOnly "2025-12-01" "2025-12-02" scenarioA false
    devAllOk (by decide) (by decide)

/-! ### Lemmas about retention and the store -/

theorem dateLe_iff (a b : String) : dateLe a b ↔ a ≤ b :=
  String.le_iff_toList_le.symm

theorem sortDatesDesc_perm (dates : List String) :
    List.Perm (sortDatesDesc dates) dates :=
  List.perm_insertionSort _ dates

theorem sortDatesDesc_sorted (dates : List String) :
    List.Pairwise (fun a b : String => b ≤ a) (sortDatesDesc dates) := by
  haveI : IsTotal String (fun a b : String => dateLe b a) :=
    ⟨fun a b => by
      rcases le_total b a with h | h
      · exact Or.inl ((dateLe_iff b a).mpr h)
      · exact Or.inr ((dateLe_iff a b).mpr h)⟩
  haveI : IsTrans String (fun a b : String => dateLe b a) :=
    ⟨fun a b c hab hbc =>
      (dateLe_iff c a).mpr
        (le_trans ((dateLe_iff c b).mp hbc) ((dateLe_iff b a).mp hab))⟩
  exact (List.sorted_insertionSort _ dates).imp
    (fun hab => (dateLe_iff _ _).mp hab)

/-- When the count exceeds the cap by one and m is the minimum date,
cleanup_old_files removes exactly m: m is gone, every other date is kept,
and the kept count equals the cap. -/
theorem cleanup_over_cap (cfg : Config) (dates : List String) (m : String)
    (hnd : dates.Nodup) (hlen : dates.length = cfg.max_files + 1)
    (hmem : m ∈ dates) (hmin : ∀ d ∈ dates, m ≤ d) :
    m ∉ cleanup_old_files cfg dates ∧
    (∀ d ∈ dates, d ≠ m → d ∈ cleanup_old_files cfg dates) ∧
    (cleanup_old_files cfg dates).length = cfg.max_files := by
  have hgt : ¬ dates.length ≤ cfg.max_files := by omega
  rw [cleanup_old_files, if_neg hgt]
  have hperm : List.Perm (sortDatesDesc dates) dates := sortDatesDesc_perm dates
  have hsorted := sortDatesDesc_sorted dates
  have hlenS : (sortDatesDesc dates).length = cfg.max_files + 1 := by
    rw [hperm.length_eq, hlen]
  have hdroplen : ((sortDatesDesc dates).drop cfg.max_files).length = 1 := by
    rw [List.length_drop, hlenS]
    omega
  obtain ⟨x, hx⟩ := List.length_eq_one.mp hdroplen
  have hsplit :
      (sortDatesDesc dates).take cfg.max_files ++ [x] = sortDatesDesc dates := by
    rw [← hx, List.take_append_drop]
  have hxmem : x ∈ dates := hperm.mem_iff.mp (by rw [← hsplit]; simp)
  have hsort2 : List.Pairwise (fun a b : String => b ≤ a)
      ((sortDatesDesc dates).take cfg.max_files ++ [x]) := by
    rw [hsplit]
    exact hsorted
  have hx_le : ∀ d ∈ (sortDatesDesc dates).take cfg.max_files, x ≤ d := by
    intro d hd
    exact (List.pairwise_append.mp hsort2).2.2 d hd x (by simp)
  have hxm : x = m := by
    have h1 : m ≤ x := hmin x hxmem
    have h2 : x ≤ m := by
      have hmS : m ∈ (sortDatesDesc dates).take cfg.max_files ++ [x] := by
        rw [hsplit]
        exact hperm.mem_iff.mpr hmem
      rcases List.mem_append.mp hmS with hmt | hmx
      · exact hx_le m hmt
      · simp only [List.mem_singleton] at hmx
        exact le_of_eq hmx.symm
    exact le_antisymm h2 h1
  have hndS : ((sortDatesDesc dates).take cfg.max_files ++ [x]).Nodup := by
    rw [hsplit]
    exact hperm.nodup_iff.mpr hnd
  have hxnotin : x ∉ (sortDatesDesc dates).take cfg.max_files := by
    have hnd2 : (x :: (sortDatesDesc dates).take cfg.max_files).Nodup :=
      (List.perm_append_singleton x _).nodup_iff.mp hndS
    exact (List.nodup_cons.mp hnd2).1
  refine ⟨hxm ▸ hxnotin, ?_, ?_⟩
  · intro d hd hdm
    have hdS : d ∈ (sortDatesDesc dates).take cfg.max_files ++ [x] := by
      rw [hsplit]
      exact hperm.mem_iff.mpr hd
    rcases List.mem_append.mp hdS with hdt | hdx
    · exact hdt
    · simp only [List.mem_singleton] at hdx
      exact absurd (hdx.trans hxm) hdm
  · rw [List.length_take, hlenS]
    omega

/-- A nonempty list of dates has a minimum. -/
theorem exists_min_date (l : List String) (h : l ≠ []) :
    ∃ m ∈ l, ∀ x ∈ l, m ≤ x := by
  induction l with
  | nil => exact absurd rfl h
  | cons a rest ih =>
    rcases eq_or_ne rest [] with rfl | hne
    · exact ⟨a, by simp, by simp⟩
    · obtain ⟨m, hm, hmle⟩ := ih hne
      rcases le_total a m with hcmp | hcmp
      · refine ⟨a, by simp, ?_⟩
        intro x hx
        rcases List.mem_cons.mp hx with rfl | hx
        · exact le_refl x
        · exact le_trans hcmp (hmle x hx)
      · refine ⟨m, by simp [hm], ?_⟩
        intro x hx
        rcases List.mem_cons.mp hx with rfl | hx
        · exact hcmp
        · exact hmle x hx

/-- Looking a key up in an association list restricted to kept keys. -/
theorem lookup_filter_keep {β : Type} (l : List (String × β))
    (keep : List String) (x : String) :
    (l.filter (fun p => decide (p.1 ∈ keep))).lookup x
      = if x ∈ keep then l.lookup x else none := by
  induction l with
  | nil => split <;> rfl
  | cons p rest ih =>
    obtain ⟨k, v⟩ := p
    by_cases hx : x = k
    · subst hx
      by_cases hk : x ∈ keep
      · rw [List.filter_cons_of_pos (by simpa using hk)]
        simp [List.lookup, hk]
      · rw [List.filter_cons_of_neg (by simpa using hk), ih]
        simp [hk]
    · by_cases hk : k ∈ keep
      · rw [List.filter_cons_of_pos (by simpa using hk)]
        simp only [List.lookup, beq_eq_false_iff_ne.mpr hx]
        exact ih
      · rw [List.filter_cons_of_neg (by simpa using hk), ih]
        by_cases hxk : x ∈ keep
        · simp [hxk, List.lookup, beq_eq_false_iff_ne.mpr hx]
        · simp [hxk]

theorem lookup_isSome_of_mem_keys {β : Type} (l : List (String × β))
    (k : String) (h : k ∈ l.map Prod.fst) : (l.lookup k).isSome = true := by
  induction l with
  | nil => simp at h
  | cons p rest ih =>
    obtain ⟨k', v⟩ := p
    by_cases hk : k = k'
    · subst hk
      simp [List.lookup]
    · have h2 : k ∈ k' :: rest.map Prod.fst := by
        simpa only [List.map_cons] using h
      have h' : k ∈ rest.map Prod.fst := by
        rcases List.mem_cons.mp h2 with he | h'
        · exact absurd he hk
        · exact h'
      simp only [List.lookup, beq_eq_false_iff_ne.mpr hk]
      exact ih h'

/-- Writing a date not yet present just prepends its file. -/
theorem save_to_csv_of_fresh (store : Store) (d : String)
    (df : List PriceSlot) (hfresh : d ∉ store.map Prod.fst) :
    save_to_csv store d df = (d, df) :: store := by
  rw [save_to_csv]
  congr 1
  rw [List.filter_eq_self]
  intro p hp
  simp only [decide_eq_true_eq]
  intro he
  exact hfresh (he ▸ List.mem_map_of_mem Prod.fst hp)

/-- Reading back after write-then-evict: the result is the plain read of the
post-write store when the date survived eviction, and nothing otherwise. -/
theorem write_and_cleanup_read (cfg : Config) (store : Store) (d : String)
    (df : List PriceSlot) (hfresh : d ∉ store.map Prod.fst) (x : String) :
    store_read (write_and_cleanup cfg store d df) x
      = if x ∈ cleanup_old_files cfg (d :: store.map Prod.fst)
        then ((d, df) :: store).lookup x else none := by
  rw [write_and_cleanup, save_to_csv_of_fresh store d df hfresh, store_read]
  simp only [store_cleanup]
  exact lookup_filter_keep ((d, df) :: store) _ x

/-- C5 counterexample: with cap 2 and stored dates 2025-12-02 and
2025-12-03, writing the new date 2025-12-01 (the smallest date string) and
evicting removes the newly-written set itself, contradicting the part of
the claim that says every other day-set including the new one persists. -/
theorem C5_counterexample :
    store_read (write_and_cleanup cfgCap2 storeTwoNewest "2025-12-01" dfLow)
        "2025-12-01" = none ∧
    (write_and_cleanup cfgCap2 storeTwoNewest "2025-12-01" dfLow).map Prod.fst
        = ["2025-12-03", "2025-12-02"] := by decide

/-- C5 amended: for every store of N day-sets with cap N, after one further
write of a fresh date and eviction, exactly the day-set with the smallest
date string (which may be the newly-written one) is removed and every other
day-set persists; and eviction does nothing whenever the count is within the
cap. -/
theorem C5_amended (cfg : Config) (store : Store) (d : String)
    (df : List PriceSlot) (m : String)
    (hnd : (store.map Prod.fst).Nodup)
    (hfresh : d ∉ store.map Prod.fst)
    (hlen : store.length = cfg.max_files)
    (hmem : m ∈ d :: store.map Prod.fst)
    (hmin : ∀ x ∈ d :: store.map Prod.fst, m ≤ x) :
    store_read (write_and_cleanup cfg store d df) m = none ∧
    (∀ x ∈ d :: store.map Prod.fst, x ≠ m →
       (store_read (write_and_cleanup cfg store d df) x).isSome = true) ∧
    (∀ dates : List String, dates.length ≤ cfg.max_files →
       cleanup_old_files cfg dates = dates) := by
  have hnd' : (d :: store.map Prod.fst).Nodup := List.nodup_cons.mpr ⟨hfresh, hnd⟩
  have hlen' : (d :: store.map Prod.fst).length = cfg.max_files + 1 := by
    simp [hlen]
  obtain ⟨hout, hkept, _⟩ :=
    cleanup_over_cap cfg (d :: store.map Prod.fst) m hnd' hlen' hmem hmin
  refine ⟨?_, ?_, ?_⟩
  · rw [write_and_cleanup_read cfg store d df hfresh m, if_neg hout]
  · intro x hx hxm
    rw [write_and_cleanup_read cfg store d df hfresh x,
      if_pos (hkept x hx hxm)]
    exact lookup_isSome_of_mem_keys ((d, df) :: store) x (by simpa using hx)
  · intro dates hle
    rw [cleanup_old_files, if_pos hle]

/-- Witness for C5 amended: cap 2, stored 2025-12-02 and 2025-12-03,
writing 2025-12-01, whose date string is the smallest of the three. -/
theorem C5_amended_witness :
    store_read (write_and_cleanup cfgCap2 storeTwoNewest "2025-12-01" dfLow)
        "2025-12-01" = none :=
  (C5_amended cfgCap2 storeTwoNewest "2025-12-01" dfLow "2025-12-01"
    (by decide) (by decide) (by decide) (by decide)
    (by
      intro x hx
      have hx' : x = "2025-12-01" ∨ x = "2025-12-03" ∨ x = "2025-12-02" := by
        simpa [storeTwoNewest] using hx
      rcases hx' with rfl | rfl | rfl <;>
        exact (dateLe_iff _ _).mp (by decide))).1

/-- C6 counterexample: cap 2, stored 2025-12-02 and 2025-12-03; the write of
2025-12-01 itself succeeds (the file appears in the store), but after
eviction a read of 2025-12-01 returns nothing — the most-recently-written
set is lost because its date is the oldest. -/
theorem C6_counterexample :
    save_to_csv storeTwoNewest "2025-12-01" dfLow
        = ("2025-12-01", dfLow) :: storeTwoNewest ∧
    store_read (write_and_cleanup cfgCap2 storeTwoNewest "2025-12-01" dfLow)
        "2025-12-01" = none := by decide

/-- C6 amended: after write(date, set) and eviction, read(date) returns the
set just written as long as the post-write count is within the cap or some
stored date is smaller; but when the store is at the cap and the written
date is strictly smaller than every stored date, eviction (which ranks
purely by date) removes the just-written set and the read returns nothing. -/
theorem C6_amended (cfg : Config) (store : Store) (d : String)
    (df : List PriceSlot)
    (hnd : (store.map Prod.fst).Nodup)
    (hfresh : d ∉ store.map Prod.fst) :
    (store.length < cfg.max_files →
       store_read (write_and_cleanup cfg store d df) d = some df) ∧
    ((∃ x ∈ store.map Prod.fst, x < d) → store.length = cfg.max_files →
       store_read (write_and_cleanup cfg store d df) d = some df) ∧
    ((∀ x ∈ store.map Prod.fst, d < x) → store.length = cfg.max_files →
       store_read (write_and_cleanup cfg store d df) d = none) := by
  have hself : ((d, df) :: store).lookup d = some df := by
    simp [List.lookup]
  refine ⟨?_, ?_, ?_⟩
  · intro hlt
    rw [write_and_cleanup_read cfg store d df hfresh d]
    have hle : (d :: store.map Prod.fst).length ≤ cfg.max_files := by
      simp only [List.length_cons, List.length_map]
      omega
    rw [cleanup_old_files, if_pos hle, if_pos (by simp)]
    exact hself
  · intro hex hlen
    obtain ⟨x, hxmem, hxd⟩ := hex
    have hnd' : (d :: store.map Prod.fst).Nodup :=
      List.nodup_cons.mpr ⟨hfresh, hnd⟩
    have hlen' : (d :: store.map Prod.fst).length = cfg.max_files + 1 := by
      simp [hlen]
    obtain ⟨m, hm, hmle⟩ :=
      exists_min_date (d :: store.map Prod.fst) (by simp)
    obtain ⟨_, hkept, _⟩ :=
      cleanup_over_cap cfg (d :: store.map Prod.fst) m hnd' hlen' hm hmle
    have hdm : d ≠ m := by
      intro he
      have : m ≤ x := hmle x (by simp [hxmem])
      rw [← he] at this
      exact absurd hxd (not_lt.mpr this)
    rw [write_and_cleanup_read cfg store d df hfresh d,
      if_pos (hkept d (by simp) hdm)]
    exact hself
  · intro hall hlen
    have hnd' : (d :: store.map Prod.fst).Nodup :=
      List.nodup_cons.mpr ⟨hfresh, hnd⟩
    have hlen' : (d :: store.map Prod.fst).length = cfg.max_files + 1 := by
      simp [hlen]
    have hmin : ∀ x ∈ d :: store.map Prod.fst, d ≤ x := by
      intro x hx
      rcases List.mem_cons.mp hx with rfl | hx
      · exact le_refl x
      · exact le_of_lt (hall x hx)
    obtain ⟨hout, _, _⟩ :=
      cleanup_over_cap cfg (d :: store.map Prod.fst) d hnd' hlen' (by simp) hmin
    rw [write_and_cleanup_read cfg store d df hfresh d, if_neg hout]

/-- Witness for C6 amended: with cap 2 and stored dates 2025-12-02 and
2025-12-03, writing 2025-12-01 — strictly smaller than both stored dates —
and evicting loses the just-written set. -/
theorem C6_amended_witness :
    store_read (write_and_cleanup cfgCap2 storeTwoNewest "2025-12-01" dfLow)
        "2025-12-01" = none :=
  (C6_amended cfgCap2 storeTwoNewest "2025-12-01" dfLow
    (by decide) (by decide)).2.2
    (by
      intro x hx
      have hx' : x = "2025-12-03" ∨ x = "2025-12-02" := by
        simpa [storeTwoNewest] using hx
      rcases hx' with rfl | rfl <;>
        exact String.lt_iff_toList_lt.mpr (by decide))
    (by decide)

/-- C7 counterexample: the device connects, the first register write
succeeds and the second raises; discharge_command returns False with the
connection still open and only one write done — client.close() sits on the
straight-line path after the writes and is skipped when the except clause
is taken, so a write failure midway leaks the open connection. -/
theorem C7_counterexample :
    discharge_command devSecondWriteRaises "14:30" 15
      = ⟨false, true, [(0x011A, 14)]⟩ := by decide

/-- C7 amended: the connection is closed on the all-writes-succeed path
(success implies no open connection at return), but it is left open exactly
when the connect succeeded and then the start-time parse or any of the four
register writes raised; only a connect failure avoids the leak among the
failure paths. -/
theorem C7_amended (dev : DeviceOracle) (st : String) (dur : Nat) :
    ((discharge_command dev st dur).success = true →
       (discharge_command dev st dur).connOpen = false) ∧
    ((discharge_command dev st dur).connOpen = true ↔
       dev.connectOk = true ∧
       (parseHM st = none ∨ dev.writeRaises 0 = true ∨
        dev.writeRaises 1 = true ∨ dev.writeRaises 2 = true ∨
        dev.writeRaises 3 = true)) := by
  rcases hc : dev.connectOk with _ | _
  · simp [discharge_command, hc]
  · rcases hp : parseHM st with _ | hm
    · simp [discharge_command, hc, hp]
    · obtain ⟨h, m⟩ := hm
      rcases h0 : dev.writeRaises 0 <;> rcases h1 : dev.writeRaises 1 <;>
        rcases h2 : dev.writeRaises 2 <;> rcases h3 : dev.writeRaises 3 <;>
        simp [discharge_command, hc, hp, h0, h1, h2, h3]

/-- Witness for C7 amended: on a fully healthy device the command succeeds
and the connection is closed at return. -/
theorem C7_amended_witness :
    (discharge_command devAllOk "14:30" 15).connOpen = false :=
  (C7_amended devAllOk "14:30" 15).1 (by decide)

/-- C8 counterexample: fetch_prices returns the same None for the 204
no-content response, for a 500 error response and for a raised transport
exception — the claimed typed distinction between NoDataYet and
TransientError does not exist in the returned value (it lives only in the
log text). -/
theorem C8_counterexample :
    processResponse id (.ok ⟨204, none⟩) = none ∧
    processResponse id (.ok ⟨500, none⟩) = none ∧
    processResponse id (.exn "timeout") = none ∧
    processResponse id (.ok ⟨204, none⟩) = processResponse id (.ok ⟨500, none⟩)
    := by decide

/-- C8 amended: fetch returns the converted slots on a 200 response with a
non-empty entry list, and an indistinguishable None in every other case —
raised exception, non-200 status (204 pre-auction included), and missing or
empty entry list alike. -/
theorem C8_amended (localHM : String → String) :
    (∀ msg, processResponse localHM (.exn msg) = none) ∧
    (∀ r : ApiResponse, r.status_code ≠ 200 →
       processResponse localHM (.ok r) = none) ∧
    (∀ r : ApiResponse,
       r.multiAreaEntries = none ∨ r.multiAreaEntries = some [] →
       processResponse localHM (.ok r) = none) ∧
    (∀ (r : ApiResponse) (e : RawEntry) (es : List RawEntry),
       r.status_code = 200 → r.multiAreaEntries = some (e :: es) →
       processResponse localHM (.ok r)
         = some ((e :: es).map (slotOfEntry localHM))) := by
  refine ⟨fun msg => rfl, ?_, ?_, ?_⟩
  · intro r h
    simp only [processResponse]
    rw [if_neg h]
    split <;> rfl
  · intro r hc
    rcases hc with h | h <;>
      · simp only [processResponse]
        split
        · rw [h]
        · split <;> rfl
  · intro r e es hs hm
    simp only [processResponse]
    rw [if_pos hs, hm]

/-- Witness for C8 amended: a 204 response yields None; a 200 response with
one entry yields that entry's converted slot. -/
theorem C8_amended_witness :
    processResponse id (.ok ⟨204, none⟩) = none ∧
    processResponse id (.ok ⟨200, some [entryNoLV]⟩)
      = some ([entryNoLV].map (slotOfEntry id)) :=
  ⟨(C8_amended id).2.1 ⟨204, none⟩ (by decide),
   (C8_amended id).2.2.2 ⟨200, some [entryNoLV]⟩ entryNoLV [] rfl rfl⟩

/-- C9 counterexample: at 15:10 (54600 s) the window is closed (minute 10
is before the :30 mark); the next eligible instant is 15:30 (55800 s, a
1200 s wait), but the computed target is 14:30 (52200 s) — already in the
past — and the sleep is the 60-second floor, so the scheduler does not
compute the exact wait to the next eligible boundary. -/
theorem C9_counterexample :
    should_attempt_fetch CONFIG 15 10 = false ∧
    should_attempt_fetch CONFIG 15 30 = true ∧
    next_attempt_sec CONFIG 54600 = 52200 ∧
    52200 < 54600 ∧
    wait_sleep_sec CONFIG 54600 = 60 ∧
    wait_sleep_sec CONFIG 54600 ≠ 55800 - 54600 := by decide

/-- C9 amended: at or before the window start the computed target is
exactly the window start (Scenario C holds: at 12:00 the wait target is
13:30, not an immediate attempt) and the sleep is the distance floored at
60 s; strictly after the window start the computed target is the fixed
instant window-start + 1 h regardless of the current time — not the top of
the next hour — again with the 60 s floor, so past 14:30 the scheduler
sleeps one minute at a time instead of computing the exact wait. -/
theorem C9_amended (cfg : Config) (nowSec : Nat) :
    (nowSec ≤ (cfg.retry_start_hour * 60 + cfg.retry_minutes) * 60 →
       next_attempt_sec cfg nowSec
           = (cfg.retry_start_hour * 60 + cfg.retry_minutes) * 60 ∧
       wait_sleep_sec cfg nowSec
           = max ((((cfg.retry_start_hour * 60 + cfg.retry_minutes) * 60 :
               Nat) : Int) - (nowSec : Int)) 60) ∧
    ((cfg.retry_start_hour * 60 + cfg.retry_minutes) * 60 < nowSec →
       next_attempt_sec cfg nowSec
           = (cfg.retry_start_hour * 60 + cfg.retry_minutes) * 60 + 3600 ∧
       wait_sleep_sec cfg nowSec
           = max ((((cfg.retry_start_hour * 60 + cfg.retry_minutes) * 60
               + 3600 : Nat) : Int) - (nowSec : Int)) 60) := by
  constructor
  · intro h
    have h1 : next_attempt_sec cfg nowSec
        = (cfg.retry_start_hour * 60 + cfg.retry_minutes) * 60 := by
      simp only [next_attempt_sec]
      rw [if_neg (not_lt.mpr h)]
    exact ⟨h1, by rw [wait_sleep_sec, h1]⟩
  · intro h
    have h1 : next_attempt_sec cfg nowSec
        = (cfg.retry_start_hour * 60 + cfg.retry_minutes) * 60 + 3600 := by
      simp only [next_attempt_sec]
      rw [if_pos h]
    exact ⟨h1, by rw [wait_sleep_sec, h1]⟩

/-- Witness for C9 amended: Scenario C, current time 12:00 (43200 s). -/
theorem C9_amended_witness :
    next_attempt_sec CONFIG 43200
        = (CONFIG.retry_start_hour * 60 + CONFIG.retry_minutes) * 60 ∧
    wait_sleep_sec CONFIG 43200
        = max ((((CONFIG.retry_start_hour * 60 + CONFIG.retry_minutes) * 60 :
            Nat) : Int) - ((43200 : Nat) : Int)) 60 :=
  (C9_amended CONFIG 43200).1 (by decide)

/-- C10: on a 200 response with entries, each price is extracted with the
literal dictionary key "LV" and default 0: an entry whose per-area map
lacks "LV" is stored with price 0 while the fetch still succeeds and
includes the slot; and the configured delivery_area affects only the
request URL, never the extraction — with the provider response fixed, any
two configured areas produce identical results. -/
theorem C10_lv_extraction (cfg cfg' : Config) (localHM : String → String)
    (http : String → HttpResult) (target_date : String)
    (r : ApiResponse) (e : RawEntry) (es : List RawEntry)
    (hconst : ∀ u v : String, http u = http v)
    (hr : http (build_url cfg target_date) = .ok r)
    (hs : r.status_code = 200)
    (hm : r.multiAreaEntries = some (e :: es)) :
    fetch_prices cfg localHM http target_date
        = some ((e :: es).map (slotOfEntry localHM)) ∧
    (e.entryPerArea.lookup "LV" = none → (slotOfEntry localHM e).Price = 0) ∧
    fetch_prices cfg localHM http target_date
        = fetch_prices cfg' localHM http target_date := by
  refine ⟨?_, ?_, ?_⟩
  · rw [fetch_prices, hr]
    simp only [processResponse]
    rw [if_pos hs, hm]
  · intro hlv
    show round2 ((e.entryPerArea.lookup "LV").getD 0) = 0
    rw [hlv]
    simp [round2, roundHalfEven]
  · rw [fetch_prices, fetch_prices,
      hconst (build_url cfg target_date) (build_url cfg' target_date)]

/-- Witness for C10 at a constant oracle whose single entry lacks "LV",
with configured areas LV and FI. -/
theorem C10_lv_extraction_witness :
    fetch_prices CONFIG id httpConstNoLV "2025-12-02"
        = some ([entryNoLV].map (slotOfEntry id)) ∧
    (slotOfEntry id entryNoLV).Price = 0 ∧
    fetch_prices CONFIG id httpConstNoLV "2025-12-02"
        = fetch_prices cfgAreaFI id httpConstNoLV "2025-12-02" :=
  have h := C10_lv_extraction CONFIG cfgAreaFI id httpConstNoLV "2025-12-02"
    ⟨200, some [entryNoLV]⟩ entryNoLV [] (fun _ _ => rfl) rfl rfl rfl
  ⟨h.1, h.2.1 (by decide), h.2.2⟩

end SolarNordpool
